import Mathlib

/-!
Verification development for the EchoGraph document-processing pipeline.

The Lean definitions below are a shallow embedding of the Python sources:

* `src/processing/chunking.py` — `DocumentChunker.chunk_text`,
  `_split_paragraphs`, `_split_large_text`, `_create_chunk`;
* `src/processing/vector_store.py` — `VectorStore.store_chunk_embeddings`;
* `src/api/tasks.py` — `process_document` (control flow and session
  semantics), `extract_relationships` (step-5 loop),
  `aggregate_document_similarities`, `determine_relationship_type`.

Strings are modelled as `List Char` (Python code points), numbers as `Nat`
and `ℚ` (Python floats are modelled as exact rationals; `round(x, n)` is
modelled as round-half-to-even, the IEEE-754 tie rule Python's `round`
implements).  Fallible operations return `Except`.  The SQLAlchemy session
is modelled by a pair of database states (last committed state and the
session's working state): `flush` makes pending rows visible to the
session, `commit` publishes the working state, closing a session without a
commit discards uncommitted work.
-/

/-- Whitespace as used by Python's `str.strip` and the regex class `\s`
for the ASCII range: space, tab, newline, carriage return, vertical tab,
form feed. -/
def isWS (c : Char) : Bool :=
  c = ' ' || c = '\t' || c = '\n' || c = '\r' || c = '\x0b' || c = '\x0c'

/-- Python `str.strip()`: drop whitespace from both ends. -/
def pstrip (s : List Char) : List Char :=
  ((s.dropWhile isWS).reverse.dropWhile isWS).reverse

/-- Python slice `s[-n:]` for `n > 0`: the last `n` characters (all of `s`
when it is shorter than `n`). -/
def takeLast (n : Nat) (s : List Char) : List Char :=
  s.drop (s.length - n)

/-- Index of the last newline of a list, if any (helper for the paragraph
regex). -/
def lastNLAux : List Char → Nat → Option Nat → Option Nat
  | [], _, acc => acc
  | c :: rest, i, acc => lastNLAux rest (i + 1) (if c = '\n' then some i else acc)

/-- Index of the last `'\n'`, if any. -/
def lastNL (l : List Char) : Option Nat := lastNLAux l 0 none

/-- Splitter for `re.split(r'\n\s*\n', text)` from `_split_paragraphs`.
A match starts at a newline `c`; the greedy `\s*` with the final `\n`
makes the match extend to the last newline inside the maximal whitespace
run that follows `c`.  The structural `fuel` argument only serves
termination: every step consumes at least one character, so
`fuel = l.length` always suffices and the out-of-fuel branch is dead. -/
def splitParasRaw : Nat → List Char → List Char → List (List Char)
  | _, acc, [] => [acc.reverse]
  | 0, acc, l => [acc.reverse ++ l]
  | fuel + 1, acc, c :: rest =>
    if c = '\n' then
      match lastNL (rest.takeWhile isWS) with
      | some k => acc.reverse :: splitParasRaw fuel [] (rest.drop (k + 1))
      | none => splitParasRaw fuel (c :: acc) rest
    else splitParasRaw fuel (c :: acc) rest

/-- `DocumentChunker._split_paragraphs`: regex split, strip each piece,
keep the non-empty ones. -/
def splitParagraphs (text : List Char) : List (List Char) :=
  ((splitParasRaw text.length [] text).map pstrip).filter (fun p => p ≠ [])

/-- Splitter for `re.split(r'(?<=[.!?])\s+', text)` from
`_split_large_text`.  A match is a maximal whitespace run whose preceding
character is `.`, `!` or `?`; the lookbehind never matches at position 0.
The `fuel` argument serves termination as in `splitParasRaw`. -/
def splitSentsRaw : Nat → Option Char → List Char → List Char → List (List Char)
  | _, _, acc, [] => [acc.reverse]
  | 0, _, acc, l => [acc.reverse ++ l]
  | fuel + 1, prev, acc, c :: rest =>
    if isWS c && (prev = some '.' || prev = some '!' || prev = some '?') then
      acc.reverse ::
        splitSentsRaw fuel (some ((c :: rest.takeWhile isWS).getLastD c)) []
          (rest.drop (rest.takeWhile isWS).length)
    else splitSentsRaw fuel (some c) (c :: acc) rest

/-- Sentence split used by `_split_large_text`. -/
def splitSentences (text : List Char) : List (List Char) :=
  splitSentsRaw text.length none [] text

/-- Chunk record emitted by `_create_chunk` (the optional `metadata`
entry, a pass-through dictionary, carries no information the claims
mention and is omitted). -/
structure Chunk where
  text : List Char
  chunk_index : Nat
  char_count : Nat
deriving DecidableEq, Repr

/-- `DocumentChunker._create_chunk`: the stored text is the stripped
text, while `char_count` is the length of the text as passed in, before
stripping. -/
def mkChunk (text : List Char) (index : Nat) : Chunk :=
  { text := pstrip text, chunk_index := index, char_count := text.length }

/-- Loop state of `_split_large_text`: finished sub-chunks and the
accumulating current chunk. -/
structure SplitState where
  chunks : List (List Char)
  current : List Char
deriving Repr

/-- One iteration of the sentence loop in `_split_large_text`. -/
def splitLargeStep (size ov : Nat) (st : SplitState) (sentence : List Char) : SplitState :=
  if st.current.length + sentence.length > size then
    { chunks := if st.current ≠ [] then st.chunks ++ [pstrip st.current] else st.chunks
      current :=
        if 0 < ov ∧ st.current ≠ [] then
          takeLast ov st.current ++ ' ' :: sentence
        else sentence }
  else
    { st with current :=
        if st.current ≠ [] then st.current ++ ' ' :: sentence else sentence }

/-- `DocumentChunker._split_large_text`: split an oversized paragraph by
sentences and re-accumulate into chunks of at most roughly `size`
characters, carrying `ov` characters of overlap between consecutive
sub-chunks. -/
def splitLargeText (size ov : Nat) (text : List Char) : List (List Char) :=
  let st := (splitSentences text).foldl (splitLargeStep size ov) ⟨[], []⟩
  if st.current ≠ [] then st.chunks ++ [pstrip st.current] else st.chunks

/-- Loop state of `chunk_text`: emitted chunks, the accumulating current
chunk, and the running chunk index. -/
structure ChunkState where
  chunks : List Chunk
  current : List Char
  idx : Nat
deriving Repr

/-- One iteration of the paragraph loop in `chunk_text`. -/
def chunkStep (size ov : Nat) (st : ChunkState) (para : List Char) : ChunkState :=
  if para.length > size then
    let st1 : ChunkState :=
      if st.current ≠ [] then
        ⟨st.chunks ++ [mkChunk st.current st.idx], [], st.idx + 1⟩
      else ⟨st.chunks, [], st.idx⟩
    let subs := splitLargeText size ov para
    ⟨st1.chunks ++ (List.enumFrom st1.idx subs).map (fun p => mkChunk p.2 p.1), [],
      st1.idx + subs.length⟩
  else if st.current.length + para.length > size then
    let st1 : ChunkState :=
      if st.current ≠ [] then
        ⟨st.chunks ++ [mkChunk st.current st.idx], st.current, st.idx + 1⟩
      else st
    { st1 with current :=
        if 0 < ov ∧ st.current ≠ [] then
          takeLast ov st.current ++ '\n' :: '\n' :: para
        else para }
  else
    { st with current :=
        if st.current ≠ [] then st.current ++ '\n' :: '\n' :: para else para }

/-- `DocumentChunker.chunk_text`: empty or whitespace-only input yields no
chunks; otherwise split into paragraphs and accumulate them into chunks,
flushing the final partial chunk at the end. -/
def chunkText (size ov : Nat) (text : List Char) : List Chunk :=
  if pstrip text = [] then []
  else
    let st := (splitParagraphs text).foldl (chunkStep size ov) ⟨[], [], 0⟩
    if st.current ≠ [] then st.chunks ++ [mkChunk st.current st.idx] else st.chunks

/-- Round-half-to-even on ℚ, as an integer: the model of Python's
built-in `round` tie behaviour. -/
def roundHalfEven (q : ℚ) : ℤ :=
  if q - ⌊q⌋ < 1 / 2 then ⌊q⌋
  else if 1 / 2 < q - ⌊q⌋ then ⌊q⌋ + 1
  else if ⌊q⌋ % 2 = 0 then ⌊q⌋ else ⌊q⌋ + 1

/-- Python `round(x, 2)` on the rational model. -/
def round2 (q : ℚ) : ℚ := (roundHalfEven (q * 100) : ℚ) / 100

/-- Python `round(x, 4)` on the rational model. -/
def round4 (q : ℚ) : ℚ := (roundHalfEven (q * 10000) : ℚ) / 10000

/-- Insert into a descending list (helper for `sortDesc`). -/
def insertDesc (x : ℚ) : List ℚ → List ℚ
  | [] => [x]
  | y :: ys => if y ≤ x then x :: y :: ys else y :: insertDesc x ys

/-- Model of Python `sorted(scores, reverse=True)` on score values
(insertion sort; stability is irrelevant because only the sorted values
are consumed). -/
def sortDesc : List ℚ → List ℚ
  | [] => []
  | x :: xs => insertDesc x (sortDesc xs)

/-- Python `max(l)` on a non-empty list (`max` of an empty list raises
in Python; the `[]` branch is dead at every call site). -/
def listMax : List ℚ → ℚ
  | [] => 0
  | x :: xs => xs.foldl max x

/-- Python `min(l)` on a non-empty list (dead `[]` branch as in
`listMax`). -/
def listMin : List ℚ → ℚ
  | [] => 0
  | x :: xs => xs.foldl min x

/-- Document type enumeration from `src/api/models.py`. -/
inductive DocumentType where
  | NORM
  | GUIDELINE
deriving DecidableEq, Repr

/-- Relationship type enumeration from `src/api/models.py`. -/
inductive RelationshipType where
  | COMPLIANCE
  | CONFLICT
  | REFERENCE
  | SIMILAR
  | SUPERSEDES
deriving DecidableEq, Repr

/-- Validation status enumeration from `src/api/models.py`. -/
inductive ValidationStatus where
  | AUTO_DETECTED
  | PENDING_REVIEW
  | APPROVED
  | REJECTED
deriving DecidableEq, Repr

/-- The document attributes `determine_relationship_type` reads: the
type, and the nullable free-form `version` string. -/
structure DocInfo where
  document_type : DocumentType
  version : Option (List Char)
deriving DecidableEq, Repr

/-- Python truthiness of a nullable string column: `None` and the empty
string are falsy. -/
def versionTruthy : Option (List Char) → Bool
  | none => false
  | some v => v ≠ []

/-- Python string `<`: lexicographic comparison by code point. -/
def ltLex : List Char → List Char → Bool
  | [], [] => false
  | [], _ :: _ => true
  | _ :: _, [] => false
  | a :: as, b :: bs => if a = b then ltLex as bs else decide (a.toNat < b.toNat)

/-- `determine_relationship_type` from `src/api/tasks.py`.  `scores` is
the bucket's score list; the Python code divides by `len(scores)`
(buckets are created non-empty, so the division is never by zero). -/
def determineRelationshipType (src tgt : DocInfo) (scores : List ℚ) : RelationshipType :=
  let avg := scores.sum / (scores.length : ℚ)
  if src.document_type = .NORM ∧ tgt.document_type = .GUIDELINE then .COMPLIANCE
  else if src.document_type = .GUIDELINE ∧ tgt.document_type = .NORM then .REFERENCE
  else if src.document_type = .NORM ∧ tgt.document_type = .NORM then
    if avg > 90 / 100 then
      if versionTruthy src.version ∧ versionTruthy tgt.version then
        if ltLex (tgt.version.getD []) (src.version.getD []) then .SUPERSEDES
        else .SIMILAR
      else .SIMILAR
    else .SIMILAR
  else .SIMILAR

/-- Relationship-type table as the specification states it: a direct
transcription of the spec's table, used to compare against the
implementation `determineRelationshipType`. -/
def specRelationshipType (src tgt : DocInfo) (scores : List ℚ) : RelationshipType :=
  let s := scores.sum / (scores.length : ℚ)
  match src.document_type, tgt.document_type with
  | .NORM, .GUIDELINE => .COMPLIANCE
  | .GUIDELINE, .NORM => .REFERENCE
  | .NORM, .NORM =>
    if s > 90 / 100 ∧ versionTruthy src.version ∧ versionTruthy tgt.version ∧
        ltLex (tgt.version.getD []) (src.version.getD []) then .SUPERSEDES
    else .SIMILAR
  | .GUIDELINE, .GUIDELINE => .SIMILAR

/-- Qdrant point payload fields the tasks read: `document_id` and
`section_title`.  `none` models both an absent key and an explicit
`None` value (Python's `dict.get` does not distinguish them). -/
structure Payload where
  document_id : Option Int
  section_title : Option (List Char)
deriving DecidableEq, Repr

/-- One element of the list returned by
`find_cross_document_similarities`: the tuple
`(source_chunk_id, target_chunk_id, score, src_payload, tgt_payload)`. -/
structure SimTuple where
  src_chunk_id : List Char
  tgt_chunk_id : List Char
  score : ℚ
  src_payload : Payload
  tgt_payload : Payload
deriving DecidableEq, Repr

/-- Entry of a bucket's `chunk_pairs` list. -/
structure ChunkPair where
  source_chunk_id : List Char
  target_chunk_id : List Char
  similarity : ℚ
  source_section : Option (List Char)
  target_section : Option (List Char)
deriving DecidableEq, Repr

/-- Per-target-document bucket built by
`aggregate_document_similarities`. -/
structure Bucket where
  scores : List ℚ
  chunk_pairs : List ChunkPair
  sections : List (List Char)
deriving DecidableEq, Repr

/-- Lookup in the insertion-ordered association list that models the
Python dict `doc_similarities`. -/
def getA : List (Int × Bucket) → Int → Option Bucket
  | [], _ => none
  | (k, b) :: rest, key => if k = key then some b else getA rest key

/-- Update (or append) in the insertion-ordered association list. -/
def setA : List (Int × Bucket) → Int → Bucket → List (Int × Bucket)
  | [], key, b => [(key, b)]
  | (k, b') :: rest, key, b =>
    if k = key then (key, b) :: rest else (k, b') :: setA rest key b

/-- Python truthiness check `if not target_doc_id` on the payload's
`document_id`: an absent key, a `None` value and the value `0` are all
falsy. -/
def docIdFalsy : Option Int → Bool
  | none => true
  | some v => v = 0

/-- One iteration of the loop in `aggregate_document_similarities`:
drop the match when `document_id` is falsy, otherwise extend (or create)
the bucket of that target document. -/
def aggStep (m : List (Int × Bucket)) (s : SimTuple) : List (Int × Bucket) :=
  if docIdFalsy s.tgt_payload.document_id then m
  else
    let k := s.tgt_payload.document_id.getD 0
    let b := (getA m k).getD ⟨[], [], []⟩
    let pair : ChunkPair :=
      ⟨s.src_chunk_id, s.tgt_chunk_id, round4 s.score,
        s.src_payload.section_title, s.tgt_payload.section_title⟩
    let secs :=
      (if versionTruthy s.src_payload.section_title then
        [s.src_payload.section_title.getD []] else []) ++
      (if versionTruthy s.tgt_payload.section_title then
        [s.tgt_payload.section_title.getD []] else [])
    setA m k
      { scores := b.scores ++ [s.score]
        chunk_pairs := b.chunk_pairs ++ [pair]
        sections := b.sections ++ secs }

/-- `aggregate_document_similarities` from `src/api/tasks.py`.  The
Python dict is modelled as an insertion-ordered association list. -/
def aggregateDocumentSimilarities (sims : List SimTuple) : List (Int × Bucket) :=
  sims.foldl aggStep []

/-- The ten highest scores of a bucket:
`sorted(scores, reverse=True)[:10]`. -/
def topTen (scores : List ℚ) : List ℚ := (sortDesc scores).take 10

/-- Confidence before rounding, from `extract_relationships`:
`sum(top_scores) / len(top_scores) * 100 if top_scores else 0`. -/
def confidenceRaw (scores : List ℚ) : ℚ :=
  if topTen scores ≠ [] then
    (topTen scores).sum / ((topTen scores).length : ℚ) * 100
  else 0

/-- Confidence as the specification words it: the mean of the top-10
scores in the bucket (all scores when fewer than 10 are present),
multiplied by 100. -/
def specConfidence (scores : List ℚ) : ℚ :=
  ((topTen scores).sum / ((topTen scores).length : ℚ)) * 100

/-- The `details` record of a relationship row. -/
structure Details where
  matched_chunks_count : Nat
  avg_similarity : ℚ
  max_similarity : ℚ
  min_similarity : ℚ
  matched_sections : List (List Char)
  chunk_pairs : List ChunkPair
deriving DecidableEq, Repr

/-- The `details` dictionary built in `extract_relationships`.
`list(set(...))` is modelled as first-occurrence deduplication (Python's
set iteration order is unspecified; only the membership matters). -/
def mkDetails (data : Bucket) : Details :=
  { matched_chunks_count := data.chunk_pairs.length
    avg_similarity := round4 (data.scores.sum / (data.scores.length : ℚ))
    max_similarity := round4 (listMax data.scores)
    min_similarity := round4 (listMin data.scores)
    matched_sections := data.sections.eraseDups
    chunk_pairs := data.chunk_pairs.take 20 }

/-- A `DocumentRelationship` row as `extract_relationships` creates it
(the human-readable `summary` string carries no claim-relevant data and
is omitted). -/
structure RelRow where
  source_doc_id : Int
  target_doc_id : Int
  relationship_type : RelationshipType
  confidence : ℚ
  details : Details
  validation_status : ValidationStatus
deriving DecidableEq, Repr

/-- Construction of one relationship row in step 5 of
`extract_relationships`. -/
def mkRelationship (srcId tgtId : Int) (src tgt : DocInfo) (data : Bucket) : RelRow :=
  { source_doc_id := srcId
    target_doc_id := tgtId
    relationship_type := determineRelationshipType src tgt data.scores
    confidence := round2 (confidenceRaw data.scores)
    details := mkDetails data
    validation_status := .AUTO_DETECTED }

/-- The existence check of step 5: a relationship row with this ordered
(source, target) pair is already visible to the session. -/
def relExists (rows : List RelRow) (srcId tgtId : Int) : Bool :=
  rows.any (fun r => r.source_doc_id == srcId && r.target_doc_id == tgtId)

/-- One iteration of the step-5 loop of `extract_relationships`: skip
when the (source, target) relationship already exists, skip when the
target document is not found, otherwise add the new row.  The state is
the rows visible to the session together with the
`relationships_created` counter. -/
def step5Insert (srcId : Int) (srcDoc : DocInfo) (docs : Int → Option DocInfo)
    (st : List RelRow × Nat) (entry : Int × Bucket) : List RelRow × Nat :=
  if relExists st.1 srcId entry.1 then st
  else
    match docs entry.1 with
    | none => st
    | some tgt => (st.1 ++ [mkRelationship srcId entry.1 srcDoc tgt entry.2], st.2 + 1)

/-- Step 5 of `extract_relationships`: fold the per-target buckets over
the insert-or-skip loop, starting from the committed relationship rows.
The SQLAlchemy existence query sees rows added earlier in the same loop
(autoflush), which the accumulating row list models. -/
def extractRelationshipsStep5 (srcId : Int) (srcDoc : DocInfo)
    (docs : Int → Option DocInfo) (buckets : List (Int × Bucket))
    (rows : List RelRow) : List RelRow × Nat :=
  buckets.foldl (step5Insert srcId srcDoc docs) (rows, 0)

/-- A point prepared for the Qdrant upsert. -/
structure VSPoint where
  id : Nat
  vector : List ℚ
  payload : Payload
deriving DecidableEq, Repr

/-- Triple zip by position; Python's `zip` truncates to the shortest
input. -/
def zip3 : List Nat → List (List ℚ) → List Payload → List (Nat × List ℚ × Payload)
  | a :: as, b :: bs, c :: cs => (a, b, c) :: zip3 as bs cs
  | _, _, _ => []

/-- The point-building loop of `store_chunk_embeddings`: reject the
first metadata entry with no `document_id` key, otherwise build the
batch. -/
def buildPoints : List (Nat × List ℚ × Payload) → Except (List Char) (List VSPoint)
  | [] => .ok []
  | (cid, emb, meta) :: rest =>
    if meta.document_id = none then
      .error ("Metadata for chunk missing document_id".data)
    else
      match buildPoints rest with
      | .error e => .error e
      | .ok pts => .ok (⟨cid, emb, meta⟩ :: pts)

/-- `VectorStore.store_chunk_embeddings` from
`src/processing/vector_store.py`.  The guard is the Python chained
comparison `len(chunk_ids) != len(embeddings) != len(metadata)`, which
is the conjunction of the two adjacent inequalities.  On success the
returned points are the batch handed to the Qdrant upsert, and the
Python return value is their number. -/
def store_chunk_embeddings (chunk_ids : List Nat) (embeddings : List (List ℚ))
    (metadata : List Payload) : Except (List Char) (List VSPoint) :=
  if chunk_ids.length ≠ embeddings.length ∧ embeddings.length ≠ metadata.length then
    .error ("chunk_ids, embeddings, and metadata must have same length".data)
  else buildPoints (zip3 chunk_ids embeddings metadata)

/-- Document status enumeration from `src/api/models.py`. -/
inductive DocumentStatus where
  | UPLOADING
  | PROCESSING
  | EXTRACTING
  | ANALYZING
  | EMBEDDING
  | READY
  | ERROR
deriving DecidableEq, Repr

/-- The document row fields `process_document` touches. -/
structure DocRow where
  status : DocumentStatus
  error_message : Option (List Char)
deriving DecidableEq, Repr

/-- A `DocumentChunk` row as inserted in step 6 of `process_document`. -/
structure ChunkRow where
  document_id : Nat
  chunk_index : Nat
  chunk_text : List Char
  char_count : Nat
deriving DecidableEq, Repr

/-- Row-store state relevant to one `process_document` run. -/
structure DBState where
  doc : DocRow
  chunks : List ChunkRow
deriving DecidableEq, Repr

/-- SQLAlchemy session model: the last committed database state and the
session's current working state (committed rows plus pending, flushed
changes). -/
structure DBSession where
  committed : DBState
  cur : DBState
deriving DecidableEq, Repr

/-- `session.commit()`: flush pending changes and publish the working
state. -/
def sessionCommit (s : DBSession) : DBSession := ⟨s.cur, s.cur⟩

/-- Assignment `document.status = st` on the session's working state. -/
def sessionSetStatus (s : DBSession) (st : DocumentStatus) : DBSession :=
  { s with cur := { s.cur with doc := { s.cur.doc with status := st } } }

/-- Stages of `process_document` at which an external failure can raise
(blob download, text extraction, embedding generation, vector-index
upsert). -/
inductive FailStage where
  | download
  | extract
  | embed
  | vectorUpsert
deriving DecidableEq, Repr

/-- The structured dictionary `process_document` returns. -/
structure ProcResult where
  status : List Char
  document_id : Nat
  error : Option (List Char)
deriving DecidableEq, Repr

/-- The `except` handler of `process_document`: set the document status
to ERROR on the session and commit — committing also persists any rows
still pending in the transaction — then return the structured error
dictionary.  `error_message` is not assigned anywhere in the handler. -/
def procError (docId : Nat) (msg : List Char) (s : DBSession) : ProcResult × DBState :=
  let s1 := sessionCommit (sessionSetStatus s .ERROR)
  (⟨"error".data, docId, some msg⟩, s1.committed)

/-- `process_document` from `src/api/tasks.py`, parameterised by the
stage (if any) at which the first external failure strikes.  The
successful path walks EXTRACTING → ANALYZING → EMBEDDING → READY with a
commit at each step, and any raise lands in `procError`.  Step 6 is the
loop `DocumentChunk(document_id=...)` over the chunks: the mapped column
of the model is `doc_id`, so the declarative constructor raises
`TypeError` on the first chunk — before any `db.add` — whenever at least
one chunk exists; with zero chunks the loop body never runs, the flush
is a no-op, and the vector upsert of an empty batch is reached with no
pending rows. -/
def processDocument (docId : Nat) (text : List Char) (size ov : Nat)
    (fail : Option FailStage) (db0 : DBState) : ProcResult × DBState :=
  let s0 : DBSession := ⟨db0, db0⟩
  let s1 := sessionCommit (sessionSetStatus s0 .EXTRACTING)
  if fail = some .download then procError docId "download failed".data s1
  else if fail = some .extract then procError docId "extract failed".data s1
  else
    let s2 := sessionCommit (sessionSetStatus s1 .ANALYZING)
    let chunks := chunkText size ov text
    let s3 := sessionCommit (sessionSetStatus s2 .EMBEDDING)
    if fail = some .embed then procError docId "embedding failed".data s3
    else if chunks ≠ [] then
      procError docId
        "document_id is an invalid keyword argument for DocumentChunk".data s3
    else
      if fail = some .vectorUpsert then procError docId "vector upsert failed".data s3
      else
        let s5 := sessionCommit (sessionSetStatus s3 .READY)
        (⟨"success".data, docId, none⟩, s5.committed)

/-- Helper: membership in a `relExists` check is an existence of a row
with the matching ordered pair. -/
theorem relExists_iff (rows : List RelRow) (s t : Int) :
    relExists rows s t = true ↔
      ∃ r ∈ rows, r.source_doc_id = s ∧ r.target_doc_id = t := by
  simp [relExists, List.any_eq_true]

/-- C4: relationship classification follows the spec's type table
exactly — NORM→GUIDELINE gives COMPLIANCE, GUIDELINE→NORM gives
REFERENCE, NORM→NORM gives SUPERSEDES precisely when the bucket average
similarity exceeds 0.90, both versions are truthy and the source version
is lexicographically greater (otherwise SIMILAR), GUIDELINE→GUIDELINE
gives SIMILAR, and the similarity-only path never emits CONFLICT. -/
theorem spec_C4_relationship_table (src tgt : DocInfo) (scores : List ℚ) :
    determineRelationshipType src tgt scores = specRelationshipType src tgt scores ∧
    determineRelationshipType src tgt scores ≠ RelationshipType.CONFLICT := by
  obtain ⟨st, sv⟩ := src
  obtain ⟨tt, tv⟩ := tgt
  cases st <;> cases tt <;>
    simp only [determineRelationshipType, specRelationshipType] <;>
    split_ifs <;> simp_all

/-- C10: during aggregation, every match whose target payload has a
falsy `document_id` (absent key, `None`, or `0`) is silently dropped —
aggregation of any similarity list equals aggregation of the sublist of
matches with a truthy target `document_id`, so dropped matches
contribute to no bucket (and, the fold being total, aggregation never
raises on them). -/
theorem spec_C10_falsy_dropped (sims : List SimTuple) :
    aggregateDocumentSimilarities sims =
      aggregateDocumentSimilarities
        (sims.filter (fun s => !docIdFalsy s.tgt_payload.document_id)) := by
  suffices h : ∀ (l : List SimTuple) (m : List (Int × Bucket)),
      l.foldl aggStep m =
        (l.filter (fun s => !docIdFalsy s.tgt_payload.document_id)).foldl aggStep m by
    exact h sims []
  intro l
  induction l with
  | nil => intro m; rfl
  | cons s rest ih =>
    intro m
    by_cases hs : docIdFalsy s.tgt_payload.document_id
    · simp [List.filter_cons, hs, aggStep, ih]
    · simp [List.filter_cons, hs, List.foldl_cons, ih]

/-- C3: evaluation of `store_chunk_embeddings` at a call where
`len(chunk_ids) = len(embeddings) = 1` but `len(metadata) = 0`: the
chained comparison `len(a) != len(b) != len(c)` is false, so no error is
raised and the zip silently truncates the batch to zero points. -/
theorem spec_C3_chained_comparison_eval :
    store_chunk_embeddings [1] [[1]] [] = Except.ok [] ∧
    ([1] : List Nat).length = ([[1]] : List (List ℚ)).length ∧
    ([1] : List Nat).length ≠ ([] : List Payload).length := by
  refine ⟨rfl, rfl, by decide⟩

/-- C8: evaluation of the details construction at a bucket holding 21
chunk pairs whose last pair carries the strictly highest similarity: the
stored `chunk_pairs` are the first 20 pairs in aggregation order, and the
highest-scoring pair of the bucket is dropped — not the 20 pairs with
the highest scores. -/
theorem spec_C8_first20_not_top20 :
    (mkDetails ⟨List.replicate 20 (1 / 2) ++ [19 / 20],
        List.replicate 20 ⟨"a".data, "b".data, 1 / 2, none, none⟩ ++
          [⟨"best".data, "b".data, 19 / 20, none, none⟩], []⟩).chunk_pairs =
      List.replicate 20 ⟨"a".data, "b".data, 1 / 2, none, none⟩ ∧
    (⟨"best".data, "b".data, 19 / 20, none, none⟩ : ChunkPair) ∈
      (List.replicate 20 (⟨"a".data, "b".data, 1 / 2, none, none⟩ : ChunkPair) ++
        [⟨"best".data, "b".data, 19 / 20, none, none⟩]) ∧
    (⟨"best".data, "b".data, 19 / 20, none, none⟩ : ChunkPair) ∉
      (mkDetails ⟨List.replicate 20 (1 / 2) ++ [19 / 20],
        List.replicate 20 ⟨"a".data, "b".data, 1 / 2, none, none⟩ ++
          [⟨"best".data, "b".data, 19 / 20, none, none⟩], []⟩).chunk_pairs ∧
    ((1 : ℚ) / 2) < 19 / 20 := by
  refine ⟨?_, ?_, ?_, by norm_num⟩
  · simp [mkDetails, List.take_append_of_le_length]
  · simp
  · simp [mkDetails, List.take_append_of_le_length, List.mem_replicate]

/-- C1 counterexample: a run of `process_document` that fails at the
vector-upsert stage leaves the document in status ERROR with
`error_message` still empty — the job never stores an error message, so
`status = ERROR` does not imply a non-empty `error_message`. -/
theorem spec_C1_counterexample :
    (processDocument 1 "hello".data 512 50 (some .vectorUpsert)
        ⟨⟨.PROCESSING, none⟩, []⟩).2.doc.status = DocumentStatus.ERROR ∧
    (processDocument 1 "hello".data 512 50 (some .vectorUpsert)
        ⟨⟨.PROCESSING, none⟩, []⟩).2.doc.error_message = none := by
  decide

/-- C1 amended: for every document whose processing raises at any stage,
the job sets the document status to ERROR and returns the structured
error result, but stores no error message — `error_message` keeps
whatever value it had before the run. -/
theorem spec_C1_amended (docId : Nat) (text : List Char) (size ov : Nat)
    (st : FailStage) (db0 : DBState) :
    (processDocument docId text size ov (some st) db0).1.status = "error".data ∧
    (processDocument docId text size ov (some st) db0).1.document_id = docId ∧
    (processDocument docId text size ov (some st) db0).1.error ≠ none ∧
    (processDocument docId text size ov (some st) db0).2.doc.status =
      DocumentStatus.ERROR ∧
    (processDocument docId text size ov (some st) db0).2.doc.error_message =
      db0.doc.error_message := by
  cases st <;>
    simp [processDocument, procError, sessionCommit, sessionSetStatus] <;>
    (try split_ifs <;> simp)

/-- C2: evaluation of `process_document` at a document whose text yields
one chunk, with no external failure injected: stage 6's
`DocumentChunk(document_id=...)` constructor raises — the mapped column
is `doc_id` — so the run ends in status ERROR with zero chunk rows from
the run in the committed row store, and the vector upsert is never
reached while chunk rows are pending. -/
theorem spec_C2_stage6_raises :
    (processDocument 1 "hello world".data 512 50 none
        ⟨⟨.PROCESSING, none⟩, []⟩).1.status = "error".data ∧
    (processDocument 1 "hello world".data 512 50 none
        ⟨⟨.PROCESSING, none⟩, []⟩).2.doc.status = DocumentStatus.ERROR ∧
    (processDocument 1 "hello world".data 512 50 none
        ⟨⟨.PROCESSING, none⟩, []⟩).2.chunks = [] ∧
    chunkText 512 50 "hello world".data ≠ [] := by
  decide

/-- C7 counterexample: with `chunk_size = 5` and `chunk_overlap = 2` the
chunker emits three chunks for this input; the first two are consecutive
and neither is terminal, yet the second chunk does not begin with the
last two characters of the first — no overlap at all is carried across a
boundary created by an oversized paragraph. -/
theorem spec_C7_counterexample :
    chunkText 5 2 "abc\n\nqrstuvwx\n\nyz".data =
      [⟨"abc".data, 0, 3⟩, ⟨"qrstuvwx".data, 1, 8⟩, ⟨"yz".data, 2, 2⟩] ∧
    ("qrstuvwx".data).take 2 ≠ takeLast 2 "abc".data := by
  decide

/-- C7 amended: exactly `chunk_overlap` characters of overlap are
carried only at boundaries on the paragraph-accumulation path — when a
chunk is closed because the next (fitting) paragraph would overflow it,
the new accumulated text begins with the closed chunk's last
`chunk_overlap` raw characters (exactly `chunk_overlap` of them whenever
the closed chunk is at least that long); boundaries created by splitting
an oversized paragraph carry no overlap. -/
theorem spec_C7_amended (size ov : Nat) (st : ChunkState) (para : List Char)
    (hpara : ¬ para.length > size)
    (hover : st.current.length + para.length > size)
    (hcur : st.current ≠ []) (hov : 0 < ov) :
    (chunkStep size ov st para).chunks = st.chunks ++ [mkChunk st.current st.idx] ∧
    (chunkStep size ov st para).current =
      takeLast ov st.current ++ '\n' :: '\n' :: para ∧
    (ov ≤ st.current.length → (takeLast ov st.current).length = ov) := by
  refine ⟨?_, ?_, ?_⟩ <;>
    simp [chunkStep, hpara, hover, hcur, hov, takeLast]
  omega

/-- C7 amended, witness: a concrete boundary on the
paragraph-accumulation path where the closed chunk has 4 ≥ 2 characters
and the new accumulated text starts with exactly its last 2 characters. -/
theorem spec_C7_amended_witness :
    (¬ ("xyz".data).length > 5 ∧
      ("abcd".data).length + ("xyz".data).length > 5 ∧
      "abcd".data ≠ ([] : List Char) ∧ 0 < 2) ∧
    ((chunkStep 5 2 ⟨[], "abcd".data, 0⟩ "xyz".data).chunks =
        [] ++ [mkChunk "abcd".data 0] ∧
      (chunkStep 5 2 ⟨[], "abcd".data, 0⟩ "xyz".data).current =
        takeLast 2 "abcd".data ++ '\n' :: '\n' :: "xyz".data ∧
      (2 ≤ ("abcd".data).length → (takeLast 2 "abcd".data).length = 2)) := by
  exact ⟨by decide,
    spec_C7_amended 5 2 ⟨[], "abcd".data, 0⟩ "xyz".data
      (by decide) (by decide) (by decide) (by decide)⟩

/-- Helper: one step-5 iteration preserves membership of existing rows. -/
theorem step5Insert_mem (srcId : Int) (srcDoc : DocInfo) (docs : Int → Option DocInfo)
    (st : List RelRow × Nat) (e : Int × Bucket) (r : RelRow) (hr : r ∈ st.1) :
    r ∈ (step5Insert srcId srcDoc docs st e).1 := by
  unfold step5Insert
  split_ifs with h
  · exact hr
  · cases docs e.1 <;> simp [hr]

/-- Helper: the step-5 fold preserves membership of existing rows. -/
theorem step5_fold_mem (srcId : Int) (srcDoc : DocInfo) (docs : Int → Option DocInfo) :
    ∀ (bs : List (Int × Bucket)) (st : List RelRow × Nat) (r : RelRow), r ∈ st.1 →
      r ∈ (bs.foldl (step5Insert srcId srcDoc docs) st).1 := by
  intro bs
  induction bs with
  | nil => intro st r hr; exact hr
  | cons e tl ih =>
    intro st r hr
    exact ih _ r (step5Insert_mem srcId srcDoc docs st e r hr)

/-- Helper: after the step-5 fold, every bucket whose target document
exists has a matching relationship row in the result. -/
theorem step5_fold_covers (srcId : Int) (srcDoc : DocInfo) (docs : Int → Option DocInfo) :
    ∀ (bs : List (Int × Bucket)) (st : List RelRow × Nat) (k : Int) (d : Bucket),
      (k, d) ∈ bs → (docs k).isSome →
      ∃ r ∈ (bs.foldl (step5Insert srcId srcDoc docs) st).1,
        r.source_doc_id = srcId ∧ r.target_doc_id = k := by
  intro bs
  induction bs with
  | nil => intro st k d hk; cases hk
  | cons e tl ih =>
    intro st k d hk hsome
    rcases List.mem_cons.mp hk with he | htl
    · have hk0 : e.1 = k := by rw [← he]
      by_cases hex : relExists st.1 srcId e.1 = true
      · obtain ⟨r, hr, h1, h2⟩ := (relExists_iff st.1 srcId e.1).mp hex
        exact ⟨r, step5_fold_mem srcId srcDoc docs tl _ r
          (by simp [step5Insert, hex, hr]), h1, hk0 ▸ h2⟩
      · cases hd : docs e.1 with
        | none => rw [hk0] at hd; simp [hd] at hsome
        | some tgt =>
          refine ⟨mkRelationship srcId e.1 srcDoc tgt e.2,
            step5_fold_mem srcId srcDoc docs tl _ _ ?_, rfl, hk0⟩
          simp [step5Insert, hex, hd]
    · exact ih _ k d htl hsome

/-- Helper: when every bucket is either already covered by an existing
row or aimed at a missing target document, the step-5 fold changes
nothing and creates zero relationships. -/
theorem step5_fold_skip (srcId : Int) (srcDoc : DocInfo) (docs : Int → Option DocInfo) :
    ∀ (bs : List (Int × Bucket)) (rows : List RelRow) (n : Nat),
      (∀ k d, (k, d) ∈ bs → relExists rows srcId k = true ∨ docs k = none) →
      bs.foldl (step5Insert srcId srcDoc docs) (rows, n) = (rows, n) := by
  intro bs
  induction bs with
  | nil => intro rows n _; rfl
  | cons e tl ih =>
    intro rows n h
    have he := h e.1 e.2 (by simp)
    have hstep : step5Insert srcId srcDoc docs (rows, n) e = (rows, n) := by
      rcases he with he | he
      · simp [step5Insert, he]
      · simp [step5Insert, he]
    rw [List.foldl_cons, hstep]
    exact ih rows n (fun k d hk => h k d (List.mem_cons_of_mem _ hk))

/-- C9: running step 5 of `extract_relationships` a second time for the
same source document over the same buckets, target-document table and
the row state left by the first run inserts no new `DocumentRelationship`
row and modifies none — every ordered (source, target) pair is skipped
by the existence check, so re-extraction is idempotent. -/
theorem spec_C9_idempotent (srcId : Int) (srcDoc : DocInfo)
    (docs : Int → Option DocInfo) (buckets : List (Int × Bucket))
    (rows0 : List RelRow) :
    extractRelationshipsStep5 srcId srcDoc docs buckets
        (extractRelationshipsStep5 srcId srcDoc docs buckets rows0).1 =
      ((extractRelationshipsStep5 srcId srcDoc docs buckets rows0).1, 0) := by
  unfold extractRelationshipsStep5
  apply step5_fold_skip
  intro k d hk
  cases hd : docs k with
  | none => exact Or.inr rfl
  | some tgt =>
    left
    obtain ⟨r, hr, h1, h2⟩ := step5_fold_covers srcId srcDoc docs buckets
      (rows0, 0) k d hk (by simp [hd])
    exact (relExists_iff _ srcId k).mpr ⟨r, hr, h1, h2⟩

/-- Helper: stripping never lengthens a string. -/
theorem pstrip_length_le (s : List Char) : (pstrip s).length ≤ s.length := by
  unfold pstrip
  calc ((s.dropWhile isWS).reverse.dropWhile isWS).reverse.length
      = ((s.dropWhile isWS).reverse.dropWhile isWS).length := List.length_reverse _
    _ ≤ (s.dropWhile isWS).reverse.length := (List.dropWhile_sublist _).length_le
    _ = (s.dropWhile isWS).length := List.length_reverse _
    _ ≤ s.length := (List.dropWhile_sublist _).length_le

/-- Helper: the chunk list after one `chunk_text` loop iteration is the
previous chunk list extended by `_create_chunk` results only. -/
theorem chunkStep_chunks (size ov : Nat) (st : ChunkState) (para : List Char) :
    (chunkStep size ov st para).chunks = st.chunks ++
      (if para.length > size then
        (if st.current ≠ [] then [mkChunk st.current st.idx] else []) ++
          (List.enumFrom (if st.current ≠ [] then st.idx + 1 else st.idx)
            (splitLargeText size ov para)).map (fun p => mkChunk p.2 p.1)
      else if st.current.length + para.length > size then
        (if st.current ≠ [] then [mkChunk st.current st.idx] else [])
      else []) := by
  unfold chunkStep
  split_ifs <;> simp_all

/-- Helper: every chunk emitted by one `chunk_text` loop iteration is a
`_create_chunk` result, provided the chunks already emitted are. -/
theorem chunkStep_shape (size ov : Nat) (st : ChunkState) (para : List Char)
    (h : ∀ c ∈ st.chunks, ∃ raw i, c = mkChunk raw i) :
    ∀ c ∈ (chunkStep size ov st para).chunks, ∃ raw i, c = mkChunk raw i := by
  intro c hc
  rw [chunkStep_chunks] at hc
  rcases List.mem_append.mp hc with hc | hc
  · exact h c hc
  · split_ifs at hc <;>
      simp only [List.mem_append, List.mem_map, List.mem_singleton,
        List.not_mem_nil, List.nil_append, false_or, or_false] at hc <;>
    first
      | exact hc.elim
      | exact ⟨_, _, hc⟩
      | (obtain ⟨p, -, hp⟩ := hc; exact ⟨_, _, hp.symm⟩)
      | (rcases hc with hc | ⟨p, -, hp⟩
         · exact ⟨_, _, hc⟩
         · exact ⟨_, _, hp.symm⟩)

/-- Helper: the `chunk_text` fold only ever emits `_create_chunk`
results. -/
theorem chunkFold_shape (size ov : Nat) :
    ∀ (ps : List (List Char)) (st : ChunkState),
      (∀ c ∈ st.chunks, ∃ raw i, c = mkChunk raw i) →
      ∀ c ∈ (ps.foldl (chunkStep size ov) st).chunks, ∃ raw i, c = mkChunk raw i := by
  intro ps
  induction ps with
  | nil => intro st h; exact h
  | cons p tl ih =>
    intro st h
    exact ih _ (chunkStep_shape size ov st p h)

/-- C6 amended: every chunk emitted by the chunker has a trimmed `text`
field and a `char_count` equal to the length of the raw chunk text
before trimming (so `char_count` is an upper bound of, and not always
equal to, the length of the `text` field), and every empty or
whitespace-only input yields the empty sequence. -/
theorem spec_C6_amended (size ov : Nat) (text : List Char) :
    (∀ c ∈ chunkText size ov text,
      ∃ raw, c.text = pstrip raw ∧ c.char_count = raw.length ∧
        c.text.length ≤ c.char_count) ∧
    (pstrip text = [] → chunkText size ov text = []) := by
  constructor
  · intro c hc
    have hshape : ∃ raw i, c = mkChunk raw i := by
      by_cases h : pstrip text = []
      · simp [chunkText, h] at hc
      · simp only [chunkText, h, if_false] at hc
        split_ifs at hc with h2
        · rcases List.mem_append.mp hc with hc | hc
          · exact chunkFold_shape size ov (splitParagraphs text) ⟨[], [], 0⟩
              (by intro c hc; cases hc) c hc
          · exact ⟨_, _, List.mem_singleton.mp hc⟩
        · exact chunkFold_shape size ov (splitParagraphs text) ⟨[], [], 0⟩
            (by intro c hc; cases hc) c hc
    obtain ⟨raw, i, rfl⟩ := hshape
    exact ⟨raw, rfl, rfl, pstrip_length_le raw⟩
  · intro h
    simp [chunkText, h]

/-- C6 amended, witness: in the two-chunk run on `"ab c\n\nefgh"` with
`chunk_size = 5`, `chunk_overlap = 2`, the second chunk is an emitted
chunk whose `char_count` 8 is the raw pre-trim length, one more than its
trimmed text's length 7. -/
theorem spec_C6_amended_witness :
    (⟨"c\n\nefgh".data, 1, 8⟩ : Chunk) ∈ chunkText 5 2 "ab c\n\nefgh".data ∧
    (∃ raw, ("c\n\nefgh".data : List Char) = pstrip raw ∧ 8 = raw.length ∧
      ("c\n\nefgh".data : List Char).length ≤ 8) := by
  have hm : (⟨"c\n\nefgh".data, 1, 8⟩ : Chunk) ∈ chunkText 5 2 "ab c\n\nefgh".data := by
    decide
  exact ⟨hm, (spec_C6_amended 5 2 "ab c\n\nefgh".data).1 _ hm⟩

/-- Helper: descending insertion produces a permutation of the cons. -/
theorem insertDesc_perm (x : ℚ) (l : List ℚ) : (insertDesc x l).Perm (x :: l) := by
  induction l with
  | nil => rfl
  | cons y ys ih =>
    unfold insertDesc
    split_ifs
    · exact List.Perm.refl _
    · exact ((ih.cons y).trans (List.Perm.swap x y ys))

/-- Helper: the descending sort is a permutation of its input. -/
theorem sortDesc_perm (l : List ℚ) : (sortDesc l).Perm l := by
  induction l with
  | nil => rfl
  | cons x xs ih =>
    exact (insertDesc_perm x (sortDesc xs)).trans (ih.cons x)

/-- Helper: the top-ten selection is non-empty for a non-empty score
list. -/
theorem topTen_ne_nil (l : List ℚ) (h : l ≠ []) : topTen l ≠ [] := by
  unfold topTen
  have hlen : (sortDesc l).length = l.length := (sortDesc_perm l).length_eq
  intro hc
  rcases List.take_eq_nil_iff.mp hc with hc | hc
  · exact absurd hc (by omega)
  · have : (sortDesc l).length = 0 := by rw [hc]; rfl
    exact h (List.length_eq_zero.mp (hlen ▸ this))

/-- Helper: every selected top score is one of the bucket's scores. -/
theorem topTen_mem (l : List ℚ) (x : ℚ) (hx : x ∈ topTen l) : x ∈ l := by
  exact (sortDesc_perm l).mem_iff.mp ((List.take_sublist 10 (sortDesc l)).subset hx)

/-- Helper: with at most ten scores, the top-ten selection is a
permutation of all scores. -/
theorem topTen_all (l : List ℚ) (h : l.length ≤ 10) : (topTen l).Perm l := by
  unfold topTen
  rw [List.take_of_length_le (by rw [(sortDesc_perm l).length_eq]; exact h)]
  exact sortDesc_perm l

/-- Helper: the mean of a non-empty list of values in the unit interval
lies in the unit interval. -/
theorem mean_unit (l : List ℚ) (hne : l ≠ [])
    (h : ∀ x ∈ l, 0 ≤ x ∧ x ≤ 1) :
    0 ≤ l.sum / (l.length : ℚ) ∧ l.sum / (l.length : ℚ) ≤ 1 := by
  have hpos : (0 : ℚ) < (l.length : ℚ) := by
    have : 0 < l.length := List.length_pos.mpr hne
    exact_mod_cast this
  have hsum0 : 0 ≤ l.sum := List.sum_nonneg (fun x hx => (h x hx).1)
  have hsum1 : l.sum ≤ (l.length : ℚ) := by
    have := List.sum_le_card_nsmul l 1 (fun x hx => (h x hx).2)
    simpa using this
  constructor
  · exact div_nonneg hsum0 (le_of_lt hpos)
  · rw [div_le_one hpos]; exact hsum1

/-- Helper: rounding half-to-even of a non-negative rational is
non-negative. -/
theorem roundHalfEven_nonneg (q : ℚ) (h : 0 ≤ q) : 0 ≤ roundHalfEven q := by
  have hfl : (0 : ℤ) ≤ ⌊q⌋ := Int.floor_nonneg.mpr h
  unfold roundHalfEven
  split_ifs <;> omega

/-- Helper: rounding half-to-even never crosses an integer upper
bound. -/
theorem roundHalfEven_le (q : ℚ) (N : ℤ) (h : q ≤ (N : ℚ)) :
    roundHalfEven q ≤ N := by
  have hfl : ⌊q⌋ ≤ N := by
    have := Int.floor_le_floor h
    simpa using this
  have hlow : (⌊q⌋ : ℚ) ≤ q := Int.floor_le q
  unfold roundHalfEven
  split_ifs with h1 h2 h3
  · exact hfl
  · rcases lt_or_eq_of_le hfl with hlt | heq
    · omega
    · exfalso
      have : ((⌊q⌋ : ℤ) : ℚ) = (N : ℚ) := by exact_mod_cast heq
      linarith
  · exact hfl
  · rcases lt_or_eq_of_le hfl with hlt | heq
    · omega
    · exfalso
      have hq : q - ⌊q⌋ = 1 / 2 := le_antisymm (not_lt.mp h2) (not_lt.mp h1)
      have : ((⌊q⌋ : ℤ) : ℚ) = (N : ℚ) := by exact_mod_cast heq
      linarith

/-- Helper: `round(x, 2)` stays within `[0, 100]` for `x ∈ [0, 100]`. -/
theorem round2_bounds (x : ℚ) (h0 : 0 ≤ x) (h1 : x ≤ 100) :
    0 ≤ round2 x ∧ round2 x ≤ 100 := by
  unfold round2
  have hn : 0 ≤ roundHalfEven (x * 100) := roundHalfEven_nonneg _ (by linarith)
  have hl : roundHalfEven (x * 100) ≤ 10000 :=
    roundHalfEven_le _ 10000 (by push_cast; linarith)
  constructor
  · apply div_nonneg _ (by norm_num)
    exact_mod_cast hn
  · rw [div_le_iff₀ (by norm_num)]
    calc ((roundHalfEven (x * 100) : ℚ)) ≤ ((10000 : ℤ) : ℚ) := by exact_mod_cast hl
      _ = 100 * 100 := by norm_num

/-- C5: the confidence stored on a relationship row equals the mean of
the bucket's top-10 similarity scores multiplied by 100 and rounded to
two decimals; when the bucket holds at most 10 scores this is the
rounded mean of all its scores times 100; and for scores in `[0, 1]`
the stored confidence lies in `[0, 100]`. -/
theorem spec_C5_confidence (srcId tgtId : Int) (src tgt : DocInfo) (data : Bucket)
    (h0 : data.scores ≠ []) (h1 : ∀ s ∈ data.scores, 0 ≤ s ∧ s ≤ 1) :
    (mkRelationship srcId tgtId src tgt data).confidence =
      round2 (specConfidence data.scores) ∧
    (data.scores.length ≤ 10 →
      (mkRelationship srcId tgtId src tgt data).confidence =
        round2 (data.scores.sum / (data.scores.length : ℚ) * 100)) ∧
    0 ≤ (mkRelationship srcId tgtId src tgt data).confidence ∧
    (mkRelationship srcId tgtId src tgt data).confidence ≤ 100 := by
  have hne : topTen data.scores ≠ [] := topTen_ne_nil data.scores h0
  have hraw : confidenceRaw data.scores = specConfidence data.scores := by
    unfold confidenceRaw specConfidence
    rw [if_pos hne]
  have hconf : (mkRelationship srcId tgtId src tgt data).confidence =
      round2 (specConfidence data.scores) := by
    unfold mkRelationship
    rw [hraw]
  have hmean := mean_unit (topTen data.scores) hne
    (fun x hx => h1 x (topTen_mem data.scores x hx))
  have hb : 0 ≤ specConfidence data.scores ∧ specConfidence data.scores ≤ 100 := by
    unfold specConfidence
    constructor
    · nlinarith [hmean.1]
    · nlinarith [hmean.2]
  refine ⟨hconf, ?_, ?_⟩
  · intro hlen
    rw [hconf]
    unfold specConfidence
    have hperm := topTen_all data.scores hlen
    rw [hperm.sum_eq, hperm.length_eq]
  · rw [hconf]
    exact round2_bounds _ hb.1 hb.2

/-- C5 witness: the hypotheses hold and the theorem applies at the
single-score bucket `[9/10]` between two NORM documents. -/
theorem spec_C5_confidence_witness :
    (([(9 : ℚ) / 10] ≠ ([] : List ℚ)) ∧
      (∀ s ∈ [(9 : ℚ) / 10], 0 ≤ s ∧ s ≤ 1)) ∧
    ((mkRelationship 1 2 ⟨.NORM, none⟩ ⟨.NORM, none⟩ ⟨[(9 : ℚ) / 10], [], []⟩).confidence =
      round2 (specConfidence [(9 : ℚ) / 10]) ∧
    (([(9 : ℚ) / 10] : List ℚ).length ≤ 10 →
      (mkRelationship 1 2 ⟨.NORM, none⟩ ⟨.NORM, none⟩ ⟨[(9 : ℚ) / 10], [], []⟩).confidence =
        round2 (([(9 : ℚ) / 10] : List ℚ).sum / (([(9 : ℚ) / 10] : List ℚ).length : ℚ) * 100)) ∧
    0 ≤ (mkRelationship 1 2 ⟨.NORM, none⟩ ⟨.NORM, none⟩ ⟨[(9 : ℚ) / 10], [], []⟩).confidence ∧
    (mkRelationship 1 2 ⟨.NORM, none⟩ ⟨.NORM, none⟩ ⟨[(9 : ℚ) / 10], [], []⟩).confidence ≤ 100) := by
  have h0 : [(9 : ℚ) / 10] ≠ ([] : List ℚ) := by simp
  have h1 : ∀ s ∈ [(9 : ℚ) / 10], 0 ≤ s ∧ s ≤ 1 := by
    intro s hs
    simp at hs
    constructor <;> rw [hs] <;> norm_num
  exact ⟨⟨h0, h1⟩,
    spec_C5_confidence 1 2 ⟨.NORM, none⟩ ⟨.NORM, none⟩ ⟨[(9 : ℚ) / 10], [], []⟩ h0 h1⟩

/-- C6 counterexample: with `chunk_size = 5` and `chunk_overlap = 2`,
the second chunk emitted for `"ab c\n\nefgh"` has `char_count = 8` (the
raw pre-trim length of `" c\n\nefgh"`), while its trimmed `text` field
`"c\n\nefgh"` has length 7 — `char_count` is not the length of the text
field. -/
theorem spec_C6_counterexample :
    chunkText 5 2 "ab c\n\nefgh".data =
      [⟨"ab c".data, 0, 4⟩, ⟨"c\n\nefgh".data, 1, 8⟩] ∧
    ("c\n\nefgh".data : List Char).length = 7 := by
  decide
